import Mathlib

/-!
Shallow embedding of the WB tariffs integration service (btlz-wb-test).

The embedding covers the parts of the code base that the verified claims
touch: the tariff normalizer (services/tariff/tariff-service.ts), the
tariff repository (services/tariff/tariff-repository.ts), the retry
utilities (utils/retry.ts), the sheets fan-out synchronizer
(services/google-sheets/sheets-sync.ts) and the date parameter built by
the WB API client (wb-client.ts).

JavaScript numbers produced by parseFloat are modelled by the type JSNum
below: NaN, signed infinity, or a finite value represented exactly as a
rational. The finite values reachable from the string inputs in the
claims are exact decimals, so the rational representation is faithful
for them. Machine epochs and calendar days are modelled as integers.
-/

/-- Model of a JavaScript number as produced by parseFloat: NaN, a signed
infinity (the Bool is true for positive infinity), or a finite value
represented exactly as a rational. -/
inductive JSNum where
  | nan : JSNum
  | inf : Bool → JSNum
  | num : ℚ → JSNum
deriving DecidableEq, Repr

/-- JS isNaN test on a parsed number. -/
def JSNum.isNaN : JSNum → Bool
  | JSNum.nan => true
  | _ => false

/-- JS comparison with zero, v greater than 0: false for NaN, true for
positive infinity. -/
def JSNum.gtZero : JSNum → Bool
  | JSNum.nan => false
  | JSNum.inf b => b
  | JSNum.num q => decide (0 < q)

/-- JS strict equality with the literal 0. -/
def JSNum.eqZero : JSNum → Bool
  | JSNum.num q => decide (q = 0)
  | _ => false

/-- The JavaScript WhiteSpace and LineTerminator code points skipped by
parseFloat and removed by String.prototype.trim. -/
def isJsWhitespace (c : Char) : Bool :=
  c.toNat = 32 || c.toNat = 9 || c.toNat = 10 || c.toNat = 11 ||
  c.toNat = 12 || c.toNat = 13 || c.toNat = 160 || c.toNat = 5760 ||
  (8192 ≤ c.toNat && c.toNat ≤ 8202) || c.toNat = 8232 ||
  c.toNat = 8233 || c.toNat = 8239 || c.toNat = 8287 ||
  c.toNat = 12288 || c.toNat = 65279

/-- ASCII decimal digit test. -/
def isDigitChar (c : Char) : Bool := 48 ≤ c.toNat && c.toNat ≤ 57

/-- Numeric value of an ASCII digit. -/
def digitVal (c : Char) : Nat := c.toNat - 48

/-- Parse a maximal run of decimal digits left to right, returning the
accumulated value, the number of digits consumed, and the rest. -/
def parseDigitsAux (acc n : Nat) : List Char → Nat × Nat × List Char
  | [] => (acc, n, [])
  | c :: cs =>
    if isDigitChar c then parseDigitsAux (10 * acc + digitVal c) (n + 1) cs
    else (acc, n, c :: cs)

/-- Parse the optional exponent tail after the letter e or E; an
exponent with no digits is ignored, exactly as the longest-valid-prefix
rule of parseFloat ignores it. -/
def parseExpTail (cs : List Char) : Int :=
  let sc : Bool × List Char :=
    match cs with
    | '-' :: r => (true, r)
    | '+' :: r => (false, r)
    | r => (false, r)
  let t := parseDigitsAux 0 0 sc.2
  if t.2.1 = 0 then 0 else if sc.1 then -(t.1 : Int) else (t.1 : Int)

/-- Parse the optional exponent part of a decimal literal. -/
def parseExponent : List Char → Int
  | 'e' :: cs => parseExpTail cs
  | 'E' :: cs => parseExpTail cs
  | _ => 0

/-- Assemble a finite parseFloat result from sign, integer part,
fraction digits and the exponent found in the remaining input. -/
def mkJsNum (neg : Bool) (ip fp nf : Nat) (rest : List Char) : JSNum :=
  let mant : ℚ := (ip : ℚ) + (fp : ℚ) / (10 : ℚ) ^ nf
  let v : ℚ := mant * (10 : ℚ) ^ parseExponent rest
  JSNum.num (if neg then -v else v)

/-- Model of the JavaScript parseFloat builtin: skip leading whitespace,
read an optional sign, then the longest prefix that is a valid decimal
literal (including the Infinity literal); NaN when no prefix parses. -/
def jsParseFloat (s : String) : JSNum :=
  let cs0 := s.data.dropWhile isJsWhitespace
  let sc : Bool × List Char :=
    match cs0 with
    | '-' :: r => (true, r)
    | '+' :: r => (false, r)
    | r => (false, r)
  if sc.2.take 8 = "Infinity".data then JSNum.inf (!sc.1)
  else
    let ti := parseDigitsAux 0 0 sc.2
    match ti.2.2 with
    | '.' :: cs2 =>
      let tf := parseDigitsAux 0 0 cs2
      if ti.2.1 = 0 && tf.2.1 = 0 then JSNum.nan
      else mkJsNum sc.1 ti.1 tf.1 tf.2.1 tf.2.2
    | _ => if ti.2.1 = 0 then JSNum.nan else mkJsNum sc.1 ti.1 0 0 ti.2.2

/-- Membership of a character in the regex class with the Latin and
Cyrillic letters x in both cases. -/
def isXMark (c : Char) : Bool := c = 'x' || c = 'X' || c = 'х' || c = 'Х'

/-- Case-insensitive match of one character against a Cyrillic letter
given in both cases, as the i flag of the stripping regex canonicalizes
letters. -/
def ciChar (c lo up : Char) : Bool := c = lo || c = up

/-- Match of the five-character marker: the four Cyrillic letters of
the short marker word followed by the escaped literal dot of the
pattern. -/
def koefDot5 : List Char → Bool
  | c1 :: c2 :: c3 :: c4 :: c5 :: _ =>
    ciChar c1 'к' 'К' && ciChar c2 'о' 'О' && ciChar c3 'э' 'Э' &&
    ciChar c4 'ф' 'Ф' && c5 = '.'
  | _ => false

/-- Match of the eleven-letter long marker word, case-insensitively. -/
def koefficient11 : List Char → Bool
  | c1 :: c2 :: c3 :: c4 :: c5 :: c6 :: c7 :: c8 :: c9 :: c10 :: c11 :: _ =>
    ciChar c1 'к' 'К' && ciChar c2 'о' 'О' && ciChar c3 'э' 'Э' &&
    ciChar c4 'ф' 'Ф' && ciChar c5 'ф' 'Ф' && ciChar c6 'и' 'И' &&
    ciChar c7 'ц' 'Ц' && ciChar c8 'и' 'И' && ciChar c9 'е' 'Е' &&
    ciChar c10 'н' 'Н' && ciChar c11 'т' 'Т'
  | _ => false

/-- Model of the global case-insensitive regex replacement that removes
multiplier markers. At each position the ordered alternation first
tries the one-letter class of Latin or Cyrillic x, then the short
Cyrillic marker word followed by its escaped literal dot, then the
eleven-letter long marker word; a match is removed and scanning resumes
after it, otherwise the character is kept and scanning advances by one.
The long word never has the literal dot as fifth character, so it is
not shadowed by the short alternative and stays reachable. The arms for
shorter lists omit the alternatives that need more characters than
remain. -/
def stripMarkers : List Char → List Char
  | [] => []
  | c1 :: c2 :: c3 :: c4 :: c5 :: c6 :: c7 :: c8 :: c9 :: c10 :: c11 :: rest =>
    if isXMark c1 then
      stripMarkers (c2 :: c3 :: c4 :: c5 :: c6 :: c7 :: c8 :: c9 :: c10 :: c11 :: rest)
    else if koefDot5 (c1 :: c2 :: c3 :: c4 :: c5 :: []) then
      stripMarkers (c6 :: c7 :: c8 :: c9 :: c10 :: c11 :: rest)
    else if koefficient11 (c1 :: c2 :: c3 :: c4 :: c5 :: c6 :: c7 :: c8 :: c9 :: c10 :: c11 :: []) then
      stripMarkers rest
    else
      c1 :: stripMarkers (c2 :: c3 :: c4 :: c5 :: c6 :: c7 :: c8 :: c9 :: c10 :: c11 :: rest)
  | c1 :: c2 :: c3 :: c4 :: c5 :: rest =>
    if isXMark c1 then stripMarkers (c2 :: c3 :: c4 :: c5 :: rest)
    else if koefDot5 (c1 :: c2 :: c3 :: c4 :: c5 :: []) then stripMarkers rest
    else c1 :: stripMarkers (c2 :: c3 :: c4 :: c5 :: rest)
  | c :: cs =>
    if isXMark c then stripMarkers cs
    else c :: stripMarkers cs

/-- Model of String.prototype.trim: drop JS whitespace at both ends. -/
def jsTrim (cs : List Char) : List Char :=
  ((cs.dropWhile isJsWhitespace).reverse.dropWhile isJsWhitespace).reverse

/-- Raw box tariff entry from the WB API, with the optional string
fields of the validated schema. -/
structure BoxTariff where
  warehouseName : String
  boxTypeName : Option String := none
  boxDeliveryAndStorageExpr : Option String := none
  boxDeliveryBase : Option String := none
  boxDeliveryLiter : Option String := none
  boxStorageBase : Option String := none
  boxStorageLiter : Option String := none
deriving DecidableEq, Repr

/-- JS truthiness of an optional string field: defined and non-empty. -/
def truthy : Option String → Bool
  | none => false
  | some s => !s.isEmpty

/-- Model of TariffService.extractCoefficient: strip the multiplier
markers, trim, parse as a float, and default to 1.0 when the parse
yields NaN. -/
def extractCoefficient (expr : String) : JSNum :=
  let c := jsParseFloat (String.mk (jsTrim (stripMarkers expr.data)))
  if c.isNaN then JSNum.num 1 else c

/-- Replace the first comma of a string by a dot, as the one-argument
string form of String.prototype.replace does. -/
def replaceFirstComma : List Char → List Char
  | [] => []
  | c :: cs => if c = ',' then '.' :: cs else c :: replaceFirstComma cs

/-- Model of TariffService.parseNumber: normalize the first comma to a
dot, parse as a float, and map NaN to 0. -/
def parseNumber (value : String) : JSNum :=
  let n := jsParseFloat (String.mk (replaceFirstComma value.data))
  if n.isNaN then JSNum.num 0 else n

/-- Model of TariffService.calculateCoefficient, the first variant of
the service file: a truthy expression field short-circuits into
extractCoefficient; otherwise the four base and liter fields are tried
in order, each kept only when its parsed value is positive; 0 when
nothing matches. -/
def calculateCoefficient (b : BoxTariff) : JSNum :=
  if truthy b.boxDeliveryAndStorageExpr then
    extractCoefficient (b.boxDeliveryAndStorageExpr.getD "")
  else
    let c1 := parseNumber (b.boxDeliveryBase.getD "")
    if truthy b.boxDeliveryBase && c1.gtZero then c1
    else
      let c2 := parseNumber (b.boxDeliveryLiter.getD "")
      if truthy b.boxDeliveryLiter && c2.gtZero then c2
      else
        let c3 := parseNumber (b.boxStorageBase.getD "")
        if truthy b.boxStorageBase && c3.gtZero then c3
        else
          let c4 := parseNumber (b.boxStorageLiter.getD "")
          if truthy b.boxStorageLiter && c4.gtZero then c4
          else JSNum.num 0

/-- Model of TariffService.determineDeliveryType, the first variant of
the service file: first match wins over the guarded fields, with the
expression field as fallback before Unknown. -/
def determineDeliveryType (b : BoxTariff) : String :=
  if truthy b.boxDeliveryBase && !(b.boxDeliveryBase.getD "" == "0") then "Standard"
  else if truthy b.boxDeliveryLiter && !(b.boxDeliveryLiter.getD "" == "0") then "Liter-based"
  else if truthy b.boxStorageBase && !(b.boxStorageBase.getD "" == "0") then "Storage"
  else if truthy b.boxDeliveryAndStorageExpr then "Delivery"
  else "Unknown"

/-- Output record of the transformation step of the tariff service,
before database storage; the coefficient is still a JS number here. -/
structure TransformedTariff where
  date : Int
  warehouseName : String
  boxType : String
  deliveryType : String
  coefficient : JSNum
  rawData : BoxTariff
deriving DecidableEq, Repr

/-- Model of TariffService.transformBoxTariffs: derive the coefficient,
drop the entry when it is strictly equal to 0, classify the delivery
type, and default the box type to the sentinel when the name field is
falsy. -/
def transformBoxTariffs (today : Int) (bs : List BoxTariff) : List TransformedTariff :=
  bs.filterMap fun b =>
    let coefficient := calculateCoefficient b
    if coefficient.eqZero then none
    else
      some
        { date := today
          warehouseName := b.warehouseName
          boxType := if truthy b.boxTypeName then b.boxTypeName.getD "" else "Box"
          deliveryType := determineDeliveryType b
          coefficient := coefficient
          rawData := b }

/-- Processed tariff as the repository interface sees it, ready for
storage: the coefficient is the value of the DECIMAL column, modelled
as an exact rational, and rawData is the serialized JSON payload,
modelled as the already-serialized string. The date is a calendar day
number. -/
structure ProcessedTariff where
  date : Int
  warehouseName : String
  boxType : String
  deliveryType : String
  coefficient : ℚ
  rawData : String
deriving DecidableEq, Repr

/-- Row of the tariffs table, with the column names of the schema. The
id and created_at columns are not referenced by any claim and are
omitted. -/
structure TariffRow where
  date : Int
  warehouse_name : String
  box_type : String
  delivery_type : String
  coefficient : ℚ
  raw_data : String
  updated_at : Int
deriving DecidableEq, Repr

/-- The composite business key of the tariffs table. -/
abbrev TariffKey := Int × String × String × String

/-- Key of a stored row. -/
def TariffRow.key (r : TariffRow) : TariffKey :=
  (r.date, r.warehouse_name, r.box_type, r.delivery_type)

/-- Key of a processed tariff. -/
def ProcessedTariff.key (t : ProcessedTariff) : TariffKey :=
  (t.date, t.warehouseName, t.boxType, t.deliveryType)

/-- The row built for one tariff in upsertDailyTariffs, with updated_at
set to the transaction timestamp. -/
def toRow (now : Int) (t : ProcessedTariff) : TariffRow :=
  { date := t.date
    warehouse_name := t.warehouseName
    box_type := t.boxType
    delivery_type := t.deliveryType
    coefficient := t.coefficient
    raw_data := t.rawData
    updated_at := now }

/-- Model of one INSERT with ON CONFLICT DO UPDATE on the business key:
when a row with the same key exists, its coefficient, raw payload and
update timestamp are overwritten in place; otherwise the row is
appended. The database enforces at most one conflicting row through the
unique constraint; the map form below coincides with the single-row
merge on every store that satisfies that invariant. -/
def insertOrMerge (store : List TariffRow) (row : TariffRow) : List TariffRow :=
  if store.any (fun r => decide (r.key = row.key)) then
    store.map fun r =>
      if r.key = row.key then
        { r with
            coefficient := row.coefficient
            raw_data := row.raw_data
            updated_at := row.updated_at }
      else r
  else store ++ [row]

/-- The transaction body of upsertDailyTariffs: each mapped row is
upserted in order. -/
def upsertRows (store : List TariffRow) (rows : List TariffRow) : List TariffRow :=
  rows.foldl insertOrMerge store

/-- Observable outcome of one upsertDailyTariffs call: the returned
affected count, the resulting store, and whether a transaction was
opened at all. -/
structure UpsertResult where
  affected : Nat
  store : List TariffRow
  txOpened : Bool
deriving DecidableEq, Repr

/-- Model of TariffRepository.upsertDailyTariffs: an empty batch
returns 0 before any database work; otherwise all rows are written in
one transaction and the submitted count is returned. -/
def upsertDailyTariffs (store : List TariffRow) (tariffs : List ProcessedTariff) (now : Int) : UpsertResult :=
  if tariffs.isEmpty then
    { affected := 0, store := store, txOpened := false }
  else
    { affected := tariffs.length
      store := upsertRows store (tariffs.map (toRow now))
      txOpened := true }

/-- The unique-constraint invariant of the tariffs table: no two rows
share the business key. -/
def UniqueKeys (store : List TariffRow) : Prop :=
  store.Pairwise fun a b => a.key ≠ b.key

/-- The rows of a store holding a given key. -/
def rowsWithKey (store : List TariffRow) (k : TariffKey) : List TariffRow :=
  store.filter fun r => decide (r.key = k)

/-- The last tariff of a batch carrying a given key, the one whose
values survive the sequential upsert. -/
def lastKeyed (k : TariffKey) : List ProcessedTariff → Option ProcessedTariff
  | [] => none
  | t :: ts =>
    match lastKeyed k ts with
    | some u => some u
    | none => if t.key = k then some t else none

/-- Model of the SQL MAX aggregate over the date column. -/
def maxDate : List TariffRow → Option Int
  | [] => none
  | r :: rs =>
    match maxDate rs with
    | none => some r.date
    | some m => some (max r.date m)

/-- Ascending coefficient order on stored rows, the ORDER BY of the
read queries. -/
def rowCoeffLE (a b : TariffRow) : Prop := a.coefficient ≤ b.coefficient

instance : DecidableRel rowCoeffLE := fun a b =>
  inferInstanceAs (Decidable (a.coefficient ≤ b.coefficient))

instance : IsTotal TariffRow rowCoeffLE :=
  ⟨fun a b => le_total a.coefficient b.coefficient⟩

instance : IsTrans TariffRow rowCoeffLE :=
  ⟨fun _ _ _ h1 h2 => le_trans h1 h2⟩

/-- Model of TariffRepository.mapRowToTariff. -/
def mapRowToTariff (row : TariffRow) : ProcessedTariff :=
  { date := row.date
    warehouseName := row.warehouse_name
    boxType := row.box_type
    deliveryType := row.delivery_type
    coefficient := row.coefficient
    rawData := row.raw_data }

/-- Model of TariffRepository.getLatestDailyTariffs: find the maximum
stored date, return the rows of that date ordered by ascending
coefficient, mapped back to processed tariffs; empty when the store is
empty. The database sort is modelled by insertion sort, a valid
realization of the unspecified tie order. -/
def getLatestDailyTariffs (store : List TariffRow) : List ProcessedTariff :=
  match maxDate store with
  | none => []
  | some d =>
    ((store.filter fun r => decide (r.date = d)).insertionSort rowCoeffLE).map mapRowToTariff

/-- Retry configuration; delays are in milliseconds, modelled as exact
rationals. -/
structure RetryConfig where
  maxAttempts : Nat
  initialDelay : ℚ
  maxDelay : ℚ
  backoffMultiplier : ℚ
deriving DecidableEq, Repr

/-- The default retry configuration of utils/retry.ts: 3 attempts, 5
minutes initial delay, 30 minutes cap, multiplier 2. -/
def DEFAULT_RETRY_CONFIG : RetryConfig :=
  { maxAttempts := 3
    initialDelay := 300000
    maxDelay := 1800000
    backoffMultiplier := 2 }

/-- Model of calculateDelay: exponential backoff capped at maxDelay. -/
def calculateDelay (attempt : Nat) (config : RetryConfig) : ℚ :=
  min (config.initialDelay * config.backoffMultiplier ^ attempt) config.maxDelay

/-- Error value thrown by an operation, with the duck-typed fields the
retry predicate inspects: an optional HTTP status carried under
response, an optional code string, and an optional name. -/
structure JsError where
  status : Option Nat := none
  code : Option String := none
  name : Option String := none
deriving DecidableEq, Repr

/-- Model of shouldRetry from utils/retry.ts, branch for branch. -/
def shouldRetry (error : JsError) : Bool :=
  if error.status = some 401 ∨ error.status = some 403 then false
  else if error.code = some "ECONNREFUSED" ∨ error.code = some "ETIMEDOUT" ∨ error.code = some "ENOTFOUND" then true
  else if 500 ≤ error.status.getD 0 then true
  else if error.status = some 429 then true
  else if error.name = some "TimeoutError" ∨ error.code = some "ETIMEDOUT" then true
  else false

/-- Observable trace of one retry call: the final outcome, the number
of attempts the operation was invoked, and the list of sleeps performed
between attempts. The error value none stands for the synthesized
generic error thrown when the loop body never ran. -/
structure RetryTrace (ε α : Type) where
  result : Except (Option ε) α
  attempts : Nat
  delays : List ℚ

/-- The retry loop of utils/retry.ts: fn gives the outcome of each
0-based attempt; fuel is the number of attempts still allowed, so the
current attempt is the last one exactly when fuel reaches 1 after it. -/
def retryAux (fn : Nat → Except ε α) (config : RetryConfig) : Nat → Nat → RetryTrace ε α
  | _, 0 => { result := Except.error none, attempts := 0, delays := [] }
  | attempt, fuel + 1 =>
    match fn attempt with
    | Except.ok a => { result := Except.ok a, attempts := 1, delays := [] }
    | Except.error e =>
      if fuel = 0 then { result := Except.error (some e), attempts := 1, delays := [] }
      else
        let t := retryAux fn config (attempt + 1) fuel
        { result := t.result
          attempts := t.attempts + 1
          delays := calculateDelay attempt config :: t.delays }

/-- Model of the retry function: run the loop from attempt 0 with the
full attempt budget. -/
def retryRun (fn : Nat → Except ε α) (config : RetryConfig) : RetryTrace ε α :=
  retryAux fn config 0 config.maxAttempts

/-- The wrapper retryWithCondition puts around the operation: on an
error it consults shouldRetry, logs in the non-retryable case, and then
rethrows the same error in both branches. -/
def conditionWrap (fn : Nat → Except JsError α) : Nat → Except JsError α :=
  fun attempt =>
    match fn attempt with
    | Except.ok a => Except.ok a
    | Except.error e =>
      if shouldRetry e then Except.error e else Except.error e

/-- Model of retryWithCondition: the generic retry loop applied to the
wrapped operation. -/
def retryWithConditionRun (fn : Nat → Except JsError α) (config : RetryConfig) : RetryTrace JsError α :=
  retryRun (conditionWrap fn) config

/-- Per-spreadsheet sync outcome. -/
structure SyncResult where
  spreadsheetId : String
  success : Bool
  rowsUpdated : Nat
  error : Option String := none
deriving DecidableEq, Repr

/-- Two-digit decimal field. -/
def pad2 (n : Nat) : List Char :=
  [Char.ofNat (48 + n / 10 % 10), Char.ofNat (48 + n % 10)]

/-- Model of Number.prototype.toFixed with 2 digits on an exact decimal
value: round half away from zero at the second decimal. -/
def formatCoefficient (q : ℚ) : String :=
  let scaled : Int := ⌊|q| * 100 + 1 / 2⌋
  let sign : List Char := if q < 0 ∧ scaled ≠ 0 then ['-'] else []
  String.mk (sign ++ (Nat.toDigits 10 (scaled.toNat / 100) ++ '.' :: pad2 (scaled.toNat % 100)))

/-- Gregorian civil date, year-month-day, from a count of days since
1970-01-01, the calendar used by the UTC accessors of JS Date. -/
def civilFromDays (z0 : Int) : Int × Nat × Nat :=
  let z := z0 + 719468
  let era : Int := z.fdiv 146097
  let doe : Nat := (z - era * 146097).toNat
  let yoe : Nat := (doe - doe / 1460 + doe / 36524 - doe / 146096) / 365
  let y : Int := (yoe : Int) + era * 400
  let doy : Nat := doe - (365 * yoe + yoe / 4 - yoe / 100)
  let mp : Nat := (5 * doy + 2) / 153
  let d : Nat := doy - (153 * mp + 2) / 5 + 1
  let m : Nat := if mp < 10 then mp + 3 else mp - 9
  (if m ≤ 2 then y + 1 else y, m, d)

/-- Four-digit decimal field. -/
def pad4 (n : Nat) : List Char :=
  [Char.ofNat (48 + n / 1000 % 10), Char.ofNat (48 + n / 100 % 10),
   Char.ofNat (48 + n / 10 % 10), Char.ofNat (48 + n % 10)]

/-- Three-digit decimal field. -/
def pad3 (n : Nat) : List Char :=
  [Char.ofNat (48 + n / 100 % 10), Char.ofNat (48 + n / 10 % 10), Char.ofNat (48 + n % 10)]

/-- ISO date characters YYYY-MM-DD of a civil date, for years between
0 and 9999 as produced by toISOString in its unexpanded form. -/
def isoDateChars (ymd : Int × Nat × Nat) : List Char :=
  pad4 ymd.1.toNat ++ '-' :: pad2 ymd.2.1 ++ '-' :: pad2 ymd.2.2

/-- Model of SheetsSync.formatDate applied to a stored calendar day. -/
def formatDate (d : Int) : String :=
  String.mk (isoDateChars (civilFromDays d))

/-- Model of SheetsSync.formatTariffsForSheet: a fixed header row
followed by one row per tariff. -/
def formatTariffsForSheet (tariffs : List ProcessedTariff) : List (List String) :=
  ["Warehouse", "Box Type", "Delivery Type", "Coefficient", "Date"] ::
    tariffs.map fun t =>
      [t.warehouseName, t.boxType, t.deliveryType, formatCoefficient t.coefficient, formatDate t.date]

/-- Model of SheetsSync.syncSheet for one spreadsheet: the fetched
snapshot is given as an exceptional value, and the outcome of the batch
update against this target as another; every failure is caught and
recorded in the result, an empty snapshot is a success with zero rows. -/
def syncSheet (fetched : Except String (List ProcessedTariff)) (update : Except String Unit) (spreadsheetId : String) : SyncResult :=
  match fetched with
  | Except.error msg => { spreadsheetId := spreadsheetId, success := false, rowsUpdated := 0, error := some msg }
  | Except.ok tariffs =>
    if tariffs.isEmpty then
      { spreadsheetId := spreadsheetId, success := true, rowsUpdated := 0 }
    else
      match update with
      | Except.ok _ =>
        { spreadsheetId := spreadsheetId, success := true
          rowsUpdated := (formatTariffsForSheet tariffs).length - 1 }
      | Except.error msg =>
        { spreadsheetId := spreadsheetId, success := false, rowsUpdated := 0, error := some msg }

/-- Model of SheetsSync.syncAllSheets: fire one syncSheet per
configured spreadsheet and collect all outcomes. Because syncSheet
catches every failure, each settled promise is fulfilled, so the
rejected branch of the collection step never runs; the fan-out is the
map below. -/
def syncAllSheets (spreadsheetIds : List String) (fetched : Except String (List ProcessedTariff)) (update : String → Except String Unit) : List SyncResult :=
  spreadsheetIds.map fun id => syncSheet fetched (update id) id

/-- Milliseconds per day. -/
def msPerDay : Int := 86400000

/-- Model of Date.prototype.toISOString for epochs whose UTC year is
between 0 and 9999: the UTC calendar date, the letter T, the UTC time
with milliseconds, and the suffix Z. -/
def toISOStringModel (ms : Int) : String :=
  let days := ms.fdiv msPerDay
  let rem : Nat := (ms - days * msPerDay).toNat
  String.mk
    (isoDateChars (civilFromDays days) ++
     'T' :: (pad2 (rem / 3600000) ++ ':' :: pad2 (rem / 60000 % 60) ++ ':' :: pad2 (rem / 1000 % 60)) ++
     '.' :: pad3 (rem % 1000) ++ ['Z'])

/-- Model of the expression splitting an ISO string at the letter T and
keeping the first piece. -/
def splitTHead (s : String) : String :=
  String.mk (s.data.takeWhile fun c => c ≠ 'T')

/-- The date query parameter built by WBApiClient.fetchBoxTariffs from
the current epoch: the ISO timestamp truncated at the letter T. -/
def fetchBoxTariffsDateParam (ms : Int) : String :=
  splitTHead (toISOStringModel ms)

/-- Modelled from the spec: the current calendar day in UTC formatted
as ISO YYYY-MM-DD. -/
def utcCalendarDayISO (ms : Int) : String :=
  String.mk (isoDateChars (civilFromDays (ms.fdiv msPerDay)))

/-- Modelled from the spec: the current calendar day on the local
machine, formatted as ISO YYYY-MM-DD; offsetMinutesEast is the local
timezone offset, positive east of UTC. -/
def localCalendarDayISO (ms offsetMinutesEast : Int) : String :=
  String.mk (isoDateChars (civilFromDays ((ms + offsetMinutesEast * 60000).fdiv msPerDay)))

/-- The value the claimed precedence assigns to the expression field:
strip the markers, trim, parse as a float. -/
def cleanedExprValue (b : BoxTariff) : JSNum :=
  jsParseFloat (String.mk (jsTrim (stripMarkers (b.boxDeliveryAndStorageExpr.getD "").data)))

/-- The guarded parse results of the four base and liter fields in
precedence order. -/
def candidateFields (b : BoxTariff) : List JSNum :=
  (if truthy b.boxDeliveryBase then [parseNumber (b.boxDeliveryBase.getD "")] else []) ++
  (if truthy b.boxDeliveryLiter then [parseNumber (b.boxDeliveryLiter.getD "")] else []) ++
  (if truthy b.boxStorageBase then [parseNumber (b.boxStorageBase.getD "")] else []) ++
  (if truthy b.boxStorageLiter then [parseNumber (b.boxStorageLiter.getD "")] else [])

/-- First element of a candidate list that is a usable positive number;
none when no candidate qualifies. -/
def firstPositive : List JSNum → Option JSNum
  | [] => none
  | n :: ns => if n.gtZero then some n else firstPositive ns

/-- Specification-side coefficient derivation, following the wording of
claim C2: evaluate the five fields in precedence order and take the
first that yields a usable positive number, skipping a non-numeric or
non-positive parse result in favor of the next field; none means the
entry is dropped. -/
def claimedCoefficient (b : BoxTariff) : Option JSNum :=
  firstPositive
    ((if truthy b.boxDeliveryAndStorageExpr then [cleanedExprValue b] else []) ++
     candidateFields b)

/-- Specification-side coefficient derivation amended to what the code
does: a truthy expression field is always the sole source, defaulting
to 1.0 when non-numeric and keeping even non-positive parse results;
only the remaining four fields follow the positive-first precedence;
the entry is dropped exactly when the resulting value is strictly 0. -/
def amendedCoefficientSpec (b : BoxTariff) : Option JSNum :=
  if truthy b.boxDeliveryAndStorageExpr then
    some (if (cleanedExprValue b).isNaN then JSNum.num 1 else cleanedExprValue b)
  else firstPositive (candidateFields b)

/-- Specification-side delivery-type decision table of claim C7, with
first-match-wins conditions written as propositions; presence of an
optional string field is read as JS truthiness, that is, the field is
set to a non-empty string. -/
def specDeliveryType (b : BoxTariff) : String :=
  if b.boxDeliveryBase ≠ none ∧ b.boxDeliveryBase ≠ some "" ∧ b.boxDeliveryBase ≠ some "0" then
    "Standard"
  else if b.boxDeliveryLiter ≠ none ∧ b.boxDeliveryLiter ≠ some "" ∧ b.boxDeliveryLiter ≠ some "0" then
    "Liter-based"
  else if b.boxStorageBase ≠ none ∧ b.boxStorageBase ≠ some "" ∧ b.boxStorageBase ≠ some "0" then
    "Storage"
  else if b.boxDeliveryAndStorageExpr ≠ none ∧ b.boxDeliveryAndStorageExpr ≠ some "" then
    "Delivery"
  else "Unknown"

/-- Specification-side retry classification exactly as claim C8 words
it: authentication statuses are never retryable; network-unreachable
codes, timeouts, server-side errors in the 5xx range and the rate-limit
status are retryable; everything else is not. -/
def claimedRetryable (e : JsError) : Prop :=
  ¬(e.status = some 401 ∨ e.status = some 403) ∧
  (e.code = some "ECONNREFUSED" ∨ e.code = some "ENOTFOUND" ∨
   e.code = some "ETIMEDOUT" ∨ e.name = some "TimeoutError" ∨
   (500 ≤ e.status.getD 0 ∧ e.status.getD 0 ≤ 599) ∨
   e.status = some 429)

/-- Retry classification amended to what the code does: identical to
the claimed one except that the server-side class has no upper bound,
any status of 500 or more is retryable. -/
def amendedRetryable (e : JsError) : Prop :=
  ¬(e.status = some 401 ∨ e.status = some 403) ∧
  (e.code = some "ECONNREFUSED" ∨ e.code = some "ENOTFOUND" ∨
   e.code = some "ETIMEDOUT" ∨ e.name = some "TimeoutError" ∨
   500 ≤ e.status.getD 0 ∨
   e.status = some 429)

theorem truthy_iff (f : Option String) : truthy f = true ↔ f ≠ none ∧ f ≠ some "" := by
  cases f with
  | none => simp [truthy]
  | some s => simp [truthy, Bool.eq_false_iff, String.isEmpty_iff]

theorem truthyNZ_iff (f : Option String) :
    ((¬f = none ∧ ¬f = some "") ∧ ¬f.getD "" = "0") ↔
      (¬f = none ∧ ¬f = some "" ∧ ¬f = some "0") := by
  cases f <;> simp

theorem getD_eq_zero_iff (f : Option String) (hn : ¬f = none) :
    (f.getD "" = "0") ↔ f = some "0" := by
  cases f <;> simp_all

/-- C7: delivery-type classification is first-match-wins in the order
boxDeliveryBase to Standard, boxDeliveryLiter to Liter-based,
boxStorageBase to Storage, presence of boxDeliveryAndStorageExpr to
Delivery, and Unknown otherwise; presence is read as JS truthiness. The
classifier agrees with the specification decision table on every input
and its output lies in the closed set of five labels. -/
theorem determineDeliveryType_matches_spec (b : BoxTariff) :
    determineDeliveryType b = specDeliveryType b ∧
    determineDeliveryType b ∈ ["Standard", "Liter-based", "Storage", "Delivery", "Unknown"] := by
  have hmain : determineDeliveryType b = specDeliveryType b := by
    unfold determineDeliveryType specDeliveryType
    by_cases h1 : b.boxDeliveryBase ≠ none ∧ b.boxDeliveryBase ≠ some "" ∧ b.boxDeliveryBase ≠ some "0" <;>
    by_cases h2 : b.boxDeliveryLiter ≠ none ∧ b.boxDeliveryLiter ≠ some "" ∧ b.boxDeliveryLiter ≠ some "0" <;>
    by_cases h3 : b.boxStorageBase ≠ none ∧ b.boxStorageBase ≠ some "" ∧ b.boxStorageBase ≠ some "0" <;>
    by_cases h4 : b.boxDeliveryAndStorageExpr ≠ none ∧ b.boxDeliveryAndStorageExpr ≠ some "" <;>
      simp [truthy_iff, truthyNZ_iff, getD_eq_zero_iff, h1, h2, h3, h4]
  refine ⟨hmain, ?_⟩
  rw [hmain]
  unfold specDeliveryType
  split_ifs <;> simp

/-- C10: calling upsertDailyTariffs with an empty tariff list returns
an affected count of 0 and leaves the store completely unchanged: no
transaction is opened and no row is inserted, updated, or deleted. -/
theorem upsertDaily_empty_noop (store : List TariffRow) (now : Int) :
    (upsertDailyTariffs store [] now).affected = 0 ∧
    (upsertDailyTariffs store [] now).store = store ∧
    (upsertDailyTariffs store [] now).txOpened = false := by
  refine ⟨?_, ?_, ?_⟩ <;> simp [upsertDailyTariffs]

/-- C8 counterexample: an error carrying HTTP status 600 is outside
every retryable class of the claimed taxonomy, whose server-side class
is the 5xx range, yet shouldRetry retries it. -/
theorem shouldRetry_600_refutes_claim :
    shouldRetry { status := some 600 } = true ∧
    ¬claimedRetryable { status := some 600 } := by
  constructor
  · decide
  · unfold claimedRetryable
    decide

/-- C8 amended: the retry predicate classifies errors exactly as the
claim states except that the server-side class is every status of 500
or more rather than the 5xx range: authentication statuses 401 and 403
are never retryable; network-unreachable codes, timeouts, statuses of
500 and above and status 429 are retryable; every other error is not. -/
theorem shouldRetry_classification (e : JsError) :
    shouldRetry e = true ↔ amendedRetryable e := by
  unfold shouldRetry amendedRetryable
  split_ifs with h1 h2 h3 h4 h5 <;> simp_all <;> tauto

theorem charOfNat_digit_ne_T (n : Nat) : Char.ofNat (48 + n % 10) ≠ 'T' := by
  have h10 : n % 10 < 10 := Nat.mod_lt _ (by norm_num)
  set k := n % 10 with hk
  interval_cases k <;> decide

theorem pad2_ne_T (n : Nat) : ∀ c ∈ pad2 n, c ≠ 'T' := by
  intro c hc hT
  subst hT
  simp only [pad2, List.mem_cons, List.not_mem_nil, or_false] at hc
  rcases hc with h | h <;> exact charOfNat_digit_ne_T _ h.symm

theorem pad4_ne_T (n : Nat) : ∀ c ∈ pad4 n, c ≠ 'T' := by
  intro c hc hT
  subst hT
  simp only [pad4, List.mem_cons, List.not_mem_nil, or_false] at hc
  rcases hc with h | h | h | h <;> exact charOfNat_digit_ne_T _ h.symm

theorem isoDateChars_ne_T (ymd : Int × Nat × Nat) : ∀ c ∈ isoDateChars ymd, c ≠ 'T' := by
  intro c hc hT
  subst hT
  simp only [isoDateChars, List.mem_append, List.mem_cons, or_assoc] at hc
  rcases hc with h | h | h | h | h
  · exact pad4_ne_T _ _ h rfl
  · exact absurd h (by decide)
  · exact pad2_ne_T _ _ h rfl
  · exact absurd h (by decide)
  · exact pad2_ne_T _ _ h rfl

theorem takeWhile_until_T (l r : List Char) (hl : ∀ c ∈ l, c ≠ 'T') :
    ((l ++ 'T' :: r).takeWhile fun c => c ≠ 'T') = l := by
  induction l with
  | nil => simp [List.takeWhile]
  | cons c cs ih =>
    have hc : c ≠ 'T' := hl c (by simp)
    simp only [List.cons_append, List.takeWhile_cons]
    rw [if_pos (by simpa using hc)]
    rw [ih fun d hd => hl d (by simp [hd])]

/-- C9 counterexample: at the epoch 1800000 milliseconds, half past
midnight UTC on 1970-01-01, a machine whose local offset is one hour
west of UTC is still on the local calendar day 1969-12-31, yet the date
parameter the client builds is the UTC day 1970-01-01. -/
theorem dateParam_not_local_day :
    fetchBoxTariffsDateParam 1800000 = "1970-01-01" ∧
    localCalendarDayISO 1800000 (-60) = "1969-12-31" ∧
    fetchBoxTariffsDateParam 1800000 ≠ localCalendarDayISO 1800000 (-60) := by
  refine ⟨by decide, by decide, by decide⟩

/-- C9 amended: every request the Source Client builds carries a date
query parameter equal to the current calendar day in UTC, not on the
local machine, formatted as ISO YYYY-MM-DD: truncating the ISO
timestamp at the letter T always yields the UTC calendar day. -/
theorem dateParam_is_utc_day (ms : Int) :
    fetchBoxTariffsDateParam ms = utcCalendarDayISO ms := by
  unfold fetchBoxTariffsDateParam toISOStringModel splitTHead utcCalendarDayISO
  simp only [List.append_assoc, List.cons_append]
  rw [takeWhile_until_T _ _ (isoDateChars_ne_T _)]

theorem calc_eq_amendedSpec (b : BoxTariff) :
    calculateCoefficient b = (amendedCoefficientSpec b).getD (JSNum.num 0) := by
  unfold calculateCoefficient amendedCoefficientSpec candidateFields
  by_cases hE : truthy b.boxDeliveryAndStorageExpr <;>
  by_cases h1 : truthy b.boxDeliveryBase <;>
  by_cases h2 : truthy b.boxDeliveryLiter <;>
  by_cases h3 : truthy b.boxStorageBase <;>
  by_cases h4 : truthy b.boxStorageLiter <;>
    simp [hE, h1, h2, h3, h4, extractCoefficient, cleanedExprValue, firstPositive] <;>
    split_ifs <;> simp_all [firstPositive]

unseal Rat.mul Rat.inv Rat.add Rat.sub Rat.ofScientific in
/-- C2 counterexample: on the entry whose expression field is the
non-numeric string abc and whose boxDeliveryBase is 2.5, the claimed
precedence skips the unparseable expression in favor of the base field
and yields 2.5, but the code always consumes the truthy expression
field and derives the default 1.0, so the claimed precedence is false
at this input. -/
theorem coefficient_precedence_counterexample :
    calculateCoefficient
        { warehouseName := "W", boxDeliveryAndStorageExpr := some "abc",
          boxDeliveryBase := some "2.5" } = JSNum.num 1 ∧
    claimedCoefficient
        { warehouseName := "W", boxDeliveryAndStorageExpr := some "abc",
          boxDeliveryBase := some "2.5" } = some (JSNum.num (5/2)) ∧
    JSNum.num 1 ≠ JSNum.num (5/2) := by
  refine ⟨?_, ?_, ?_⟩ <;> decide

unseal Rat.mul Rat.inv Rat.add Rat.sub Rat.ofScientific in
/-- C2 amended: the coefficient derivation follows the fixed field
order, but a truthy boxDeliveryAndStorageExpr is always the sole
source: its stripped value parsed as a float is used, defaulting to 1.0
when non-numeric, and a non-positive parse result is returned rather
than skipped; only the remaining four fields are tried
first-positive-wins; the entry is dropped from the output exactly when
the derived value is strictly 0. The cited examples hold: expression
x1.5 yields 1.5, boxDeliveryBase 2,30 alone yields 2.30, and an entry
with all five fields holding the string 0 is dropped. -/
theorem coefficient_derivation_amended :
    (∀ b : BoxTariff, calculateCoefficient b = (amendedCoefficientSpec b).getD (JSNum.num 0)) ∧
    (∀ (today : Int) (b : BoxTariff),
      transformBoxTariffs today [b] = [] ↔
        ((amendedCoefficientSpec b).getD (JSNum.num 0)).eqZero = true) ∧
    calculateCoefficient
        { warehouseName := "W", boxDeliveryAndStorageExpr := some "x1.5" } = JSNum.num (3/2) ∧
    calculateCoefficient
        { warehouseName := "W", boxDeliveryBase := some "2,30" } = JSNum.num (23/10) ∧
    transformBoxTariffs 0
        [{ warehouseName := "W", boxDeliveryAndStorageExpr := some "0",
           boxDeliveryBase := some "0", boxDeliveryLiter := some "0",
           boxStorageBase := some "0", boxStorageLiter := some "0" }] = [] := by
  refine ⟨calc_eq_amendedSpec, ?_, ?_, ?_, ?_⟩
  · intro today b
    rw [← calc_eq_amendedSpec b]
    cases h : (calculateCoefficient b).eqZero <;>
      simp [transformBoxTariffs, List.filterMap_cons, h]
  · decide
  · decide
  · decide
theorem retryAux_attempts_le (fn : Nat → Except ε α) (cfg : RetryConfig) :
    ∀ fuel attempt, (retryAux fn cfg attempt fuel).attempts ≤ fuel := by
  intro fuel
  induction fuel with
  | zero => intro attempt; simp [retryAux]
  | succ n ih =>
    intro attempt
    simp only [retryAux]
    cases hf : fn attempt with
    | ok a => simp
    | error e =>
      by_cases hn : n = 0
      · subst hn; simp
      · simp only [if_neg hn]
        exact Nat.succ_le_succ (ih (attempt + 1))

theorem retryAux_attempts_pos (fn : Nat → Except ε α) (cfg : RetryConfig) :
    ∀ fuel attempt, 1 ≤ fuel → 1 ≤ (retryAux fn cfg attempt fuel).attempts := by
  intro fuel attempt hf
  match fuel, hf with
  | n + 1, _ =>
    simp only [retryAux]
    cases fn attempt with
    | ok a => simp
    | error e =>
      by_cases hn : n = 0
      · subst hn; simp
      · simp only [if_neg hn]
        exact Nat.le_add_left 1 _

theorem retryAux_delays (fn : Nat → Except ε α) (cfg : RetryConfig) :
    ∀ fuel attempt, (retryAux fn cfg attempt fuel).delays =
      (List.range ((retryAux fn cfg attempt fuel).attempts - 1)).map
        (fun i => calculateDelay (attempt + i) cfg) := by
  intro fuel
  induction fuel with
  | zero => intro attempt; simp [retryAux]
  | succ n ih =>
    intro attempt
    simp only [retryAux]
    cases hf : fn attempt with
    | ok a => simp
    | error e =>
      by_cases hn : n = 0
      · subst hn; simp
      · simp only [if_neg hn]
        have hpos : 1 ≤ (retryAux fn cfg (attempt + 1) n).attempts :=
          retryAux_attempts_pos fn cfg n (attempt + 1) (Nat.one_le_iff_ne_zero.mpr hn)
      
        obtain ⟨m, hm⟩ : ∃ m, (retryAux fn cfg (attempt + 1) n).attempts = m + 1 :=
          ⟨_, (Nat.succ_pred_eq_of_pos hpos).symm⟩
        simp only [ih (attempt + 1), hm, Nat.add_sub_cancel]
        rw [List.range_succ_eq_map]
        simp only [List.map_cons, List.map_map]
        congr 1
        apply List.map_congr_left
        intro a ha
        simp only [Function.comp_apply]
        congr 1
        omega

theorem retryAux_first_success (fn : Nat → Except ε α) (cfg : RetryConfig) :
    ∀ fuel attempt j a, j < fuel → fn (attempt + j) = Except.ok a →
      (∀ i < j, ∃ e, fn (attempt + i) = Except.error e) →
      (retryAux fn cfg attempt fuel).result = Except.ok a ∧
      (retryAux fn cfg attempt fuel).attempts = j + 1 := by
  intro fuel
  induction fuel with
  | zero => intro attempt j a hj; omega
  | succ n ih =>
    intro attempt j a hj hok hprev
    cases j with
    | zero =>
      simp only [retryAux]
      rw [show fn attempt = Except.ok a from by simpa using hok]
      exact ⟨rfl, rfl⟩
    | succ k =>
      obtain ⟨e, he⟩ := hprev 0 (Nat.succ_pos k)
      simp only [retryAux]
      rw [show fn attempt = Except.error e from by simpa using he]
      have hn : ¬n = 0 := by omega
      simp only [if_neg hn]
      have hok2 : fn (attempt + 1 + k) = Except.ok a := by
        rw [show attempt + 1 + k = attempt + (k + 1) from by omega]
        exact hok
      have hprev2 : ∀ i < k, ∃ e2, fn (attempt + 1 + i) = Except.error e2 := by
        intro i hi
        obtain ⟨e2, he2⟩ := hprev (i + 1) (by omega)
        exact ⟨e2, by rw [show attempt + 1 + i = attempt + (i + 1) from by omega]; exact he2⟩
      obtain ⟨h1, h2⟩ := ih (attempt + 1) k a (by omega) hok2 hprev2
      exact ⟨h1, by rw [h2]⟩

theorem retryAux_exhaust (fn : Nat → Except ε α) (cfg : RetryConfig) :
    ∀ fuel attempt, 1 ≤ fuel → (∀ j < fuel, ∃ e, fn (attempt + j) = Except.error e) →
      (retryAux fn cfg attempt fuel).attempts = fuel ∧
      ∃ e, fn (attempt + fuel - 1) = Except.error e ∧
        (retryAux fn cfg attempt fuel).result = Except.error (some e) := by
  intro fuel
  induction fuel with
  | zero => intro attempt h; omega
  | succ n ih =>
    intro attempt _ hall
    obtain ⟨e, he⟩ := hall 0 (Nat.succ_pos n)
    have he0 : fn attempt = Except.error e := by simpa using he
    simp only [retryAux]
    rw [he0]
    by_cases hn : n = 0
    · subst hn
      simp only [if_pos rfl]
      exact ⟨rfl, e, by simpa using he0, rfl⟩
    · simp only [if_neg hn]
      have hall2 : ∀ j < n, ∃ e2, fn (attempt + 1 + j) = Except.error e2 := by
        intro j hj
        obtain ⟨e2, he2⟩ := hall (j + 1) (by omega)
        exact ⟨e2, by rw [show attempt + 1 + j = attempt + (j + 1) from by omega]; exact he2⟩
      obtain ⟨h1, e2, he2, hr⟩ := ih (attempt + 1) (by omega) hall2
      refine ⟨by rw [h1], e2, ?_, hr⟩
      rw [show attempt + (n + 1) - 1 = attempt + 1 + n - 1 from by omega]
      exact he2

/-- C4: for every valid retry config the retry executor invokes the
operation at most maxAttempts times; the sleeps it performs are exactly
min of initialDelay times multiplier to the power i and maxDelay
between attempt i and attempt i plus one while attempts remain; on the
first success it returns the result of that attempt immediately,
having consumed exactly the failing attempts before it; and when every
allowed attempt fails it performs exactly maxAttempts attempts and
fails with the last observed error. -/
theorem retry_executor_spec {ε α : Type} (cfg : RetryConfig) (fn : Nat → Except ε α)
    (hmax : 1 ≤ cfg.maxAttempts) (hinit : 0 < cfg.initialDelay)
    (hdelay : cfg.initialDelay ≤ cfg.maxDelay) (hmult : 1 ≤ cfg.backoffMultiplier) :
    (retryRun fn cfg).attempts ≤ cfg.maxAttempts ∧
    (retryRun fn cfg).delays =
      (List.range ((retryRun fn cfg).attempts - 1)).map (fun i => calculateDelay i cfg) ∧
    (∀ j a, j < cfg.maxAttempts → fn j = Except.ok a →
      (∀ i < j, ∃ e, fn i = Except.error e) →
      (retryRun fn cfg).result = Except.ok a ∧ (retryRun fn cfg).attempts = j + 1) ∧
    ((∀ j < cfg.maxAttempts, ∃ e, fn j = Except.error e) →
      (retryRun fn cfg).attempts = cfg.maxAttempts ∧
      ∃ e, fn (cfg.maxAttempts - 1) = Except.error e ∧
        (retryRun fn cfg).result = Except.error (some e)) := by
  refine ⟨retryAux_attempts_le fn cfg _ 0, ?_, ?_, ?_⟩
  · have h := retryAux_delays fn cfg cfg.maxAttempts 0
    simpa [retryRun] using h
  · intro j a hj hok hprev
    have h := retryAux_first_success fn cfg cfg.maxAttempts 0 j a hj
      (by simpa using hok) (by simpa using hprev)
    simpa [retryRun] using h
  · intro hall
    have h := retryAux_exhaust fn cfg cfg.maxAttempts 0 hmax
      (by intro j hj; simpa using hall j hj)
    simpa [retryRun] using h

unseal Rat.mul Rat.inv Rat.add Rat.sub Rat.ofScientific in
theorem retry_executor_spec_witness :
    (1 ≤ DEFAULT_RETRY_CONFIG.maxAttempts ∧
     0 < DEFAULT_RETRY_CONFIG.initialDelay ∧
     DEFAULT_RETRY_CONFIG.initialDelay ≤ DEFAULT_RETRY_CONFIG.maxDelay ∧
     1 ≤ DEFAULT_RETRY_CONFIG.backoffMultiplier) ∧
    ((retryRun (fun i => if i = 0 then Except.error 401 else Except.ok 7) DEFAULT_RETRY_CONFIG).attempts ≤
        DEFAULT_RETRY_CONFIG.maxAttempts ∧
     (retryRun (fun i => if i = 0 then Except.error 401 else Except.ok 7) DEFAULT_RETRY_CONFIG).delays =
        (List.range ((retryRun (fun i => if i = 0 then Except.error 401 else Except.ok 7) DEFAULT_RETRY_CONFIG).attempts - 1)).map
          (fun i => calculateDelay i DEFAULT_RETRY_CONFIG) ∧
     (∀ j a, j < DEFAULT_RETRY_CONFIG.maxAttempts →
        (fun i => if i = 0 then Except.error 401 else Except.ok 7) j = Except.ok a →
        (∀ i < j, ∃ e, (fun i => if i = 0 then Except.error 401 else Except.ok 7) i = Except.error e) →
        (retryRun (fun i => if i = 0 then Except.error 401 else Except.ok 7) DEFAULT_RETRY_CONFIG).result = Except.ok a ∧
        (retryRun (fun i => if i = 0 then Except.error 401 else Except.ok 7) DEFAULT_RETRY_CONFIG).attempts = j + 1) ∧
     ((∀ j < DEFAULT_RETRY_CONFIG.maxAttempts, ∃ e,
        (fun i => if i = 0 then Except.error 401 else Except.ok 7) j = Except.error e) →
      (retryRun (fun i => if i = 0 then Except.error 401 else Except.ok 7) DEFAULT_RETRY_CONFIG).attempts =
        DEFAULT_RETRY_CONFIG.maxAttempts ∧
      ∃ e, (fun i => if i = 0 then Except.error 401 else Except.ok 7) (DEFAULT_RETRY_CONFIG.maxAttempts - 1) =
          (Except.error e : Except Nat Nat) ∧
        (retryRun (fun i => if i = 0 then Except.error 401 else Except.ok 7) DEFAULT_RETRY_CONFIG).result =
          Except.error (some e))) ∧
    (retryRun (fun i => if i = 0 then Except.error 401 else Except.ok 7) DEFAULT_RETRY_CONFIG).attempts = 2 ∧
    (retryRun (fun i => if i = 0 then Except.error 401 else Except.ok 7) DEFAULT_RETRY_CONFIG).delays = [300000] :=
  ⟨⟨by decide, by decide, by decide, by decide⟩,
   retry_executor_spec DEFAULT_RETRY_CONFIG (fun i => if i = 0 then Except.error 401 else Except.ok 7)
     (by decide) (by decide) (by decide) (by decide),
   by decide, by decide⟩

theorem conditionWrap_eq {α : Type} (fn : Nat → Except JsError α) : conditionWrap fn = fn := by
  funext i
  unfold conditionWrap
  cases fn i <;> simp

unseal Rat.mul Rat.inv Rat.add Rat.sub Rat.ofScientific in
/-- C3 counterexample: with the default config and an operation that
always fails with HTTP status 401, an error shouldRetry classifies as
non-retryable, retryWithCondition still performs all three attempts and
sleeps through both backoff delays of 5 and 10 minutes before
propagating the error, instead of propagating immediately after the
first failing attempt without sleeping. -/
theorem retryWithCondition_401_counterexample :
    shouldRetry { status := some 401 } = false ∧
    (retryWithConditionRun (fun _ => Except.error { status := some 401 } : Nat → Except JsError Unit)
      DEFAULT_RETRY_CONFIG).attempts = 3 ∧
    (retryWithConditionRun (fun _ => Except.error { status := some 401 } : Nat → Except JsError Unit)
      DEFAULT_RETRY_CONFIG).delays = [300000, 600000] ∧
    (retryWithConditionRun (fun _ => Except.error { status := some 401 } : Nat → Except JsError Unit)
      DEFAULT_RETRY_CONFIG).result = Except.error (some { status := some 401 }) ∧
    ¬((retryWithConditionRun (fun _ => Except.error { status := some 401 } : Nat → Except JsError Unit)
        DEFAULT_RETRY_CONFIG).attempts = 1 ∧
      (retryWithConditionRun (fun _ => Except.error { status := some 401 } : Nat → Except JsError Unit)
        DEFAULT_RETRY_CONFIG).delays = []) := by
  refine ⟨by decide, by decide, by decide, rfl, ?_⟩
  intro h
  have := h.1
  simp [show (retryWithConditionRun (fun _ => Except.error { status := some 401 } : Nat → Except JsError Unit)
      DEFAULT_RETRY_CONFIG).attempts = 3 from by decide] at this

/-- C3 amended: the conditional executor does not short-circuit on a
non-retryable error: it behaves exactly as the plain retry executor,
because the wrapper rethrows the same error in both branches. For an
operation that always fails with a fixed non-retryable error it
consumes the whole attempt budget, sleeping the full backoff schedule,
and propagates the error only after the last attempt. -/
theorem retryWithCondition_no_shortcircuit {α : Type} (cfg : RetryConfig)
    (fn : Nat → Except JsError α) (e : JsError)
    (hmax : 1 ≤ cfg.maxAttempts) (he : shouldRetry e = false)
    (hfn : ∀ i, fn i = Except.error e) :
    retryWithConditionRun fn cfg = retryRun fn cfg ∧
    (retryWithConditionRun fn cfg).attempts = cfg.maxAttempts ∧
    (retryWithConditionRun fn cfg).result = Except.error (some e) ∧
    (retryWithConditionRun fn cfg).delays =
      (List.range (cfg.maxAttempts - 1)).map (fun i => calculateDelay i cfg) := by
  have hw : retryWithConditionRun fn cfg = retryRun fn cfg := by
    unfold retryWithConditionRun
    rw [conditionWrap_eq]
  have hall : ∀ j < cfg.maxAttempts, ∃ e2, fn (0 + j) = Except.error e2 := by
    intro j hj
    exact ⟨e, by simpa using hfn (0 + j)⟩
  obtain ⟨h1, e2, he2, hr⟩ := retryAux_exhaust fn cfg cfg.maxAttempts 0 hmax hall
  have he2e : e2 = e := by
    have h := hfn (0 + cfg.maxAttempts - 1)
    rw [h] at he2
    injection he2 with h3
    exact h3.symm
  subst he2e
  refine ⟨hw, ?_, ?_, ?_⟩
  · rw [hw]
    simpa [retryRun] using h1
  · rw [hw]
    simpa [retryRun] using hr
  · rw [hw]
    have hd := retryAux_delays fn cfg cfg.maxAttempts 0
    rw [h1] at hd
    simpa [retryRun] using hd

unseal Rat.mul Rat.inv Rat.add Rat.sub Rat.ofScientific in
theorem retryWithCondition_no_shortcircuit_witness :
    (1 ≤ DEFAULT_RETRY_CONFIG.maxAttempts ∧
     shouldRetry { status := some 401 } = false ∧
     (∀ i : Nat, (fun _ : Nat => (Except.error { status := some 401 } : Except JsError Unit)) i =
        Except.error { status := some 401 })) ∧
    (retryWithConditionRun (fun _ : Nat => (Except.error { status := some 401 } : Except JsError Unit))
        DEFAULT_RETRY_CONFIG =
      retryRun (fun _ : Nat => (Except.error { status := some 401 } : Except JsError Unit))
        DEFAULT_RETRY_CONFIG ∧
     (retryWithConditionRun (fun _ : Nat => (Except.error { status := some 401 } : Except JsError Unit))
        DEFAULT_RETRY_CONFIG).attempts = DEFAULT_RETRY_CONFIG.maxAttempts ∧
     (retryWithConditionRun (fun _ : Nat => (Except.error { status := some 401 } : Except JsError Unit))
        DEFAULT_RETRY_CONFIG).result = Except.error (some { status := some 401 }) ∧
     (retryWithConditionRun (fun _ : Nat => (Except.error { status := some 401 } : Except JsError Unit))
        DEFAULT_RETRY_CONFIG).delays =
       (List.range (DEFAULT_RETRY_CONFIG.maxAttempts - 1)).map
         (fun i => calculateDelay i DEFAULT_RETRY_CONFIG)) :=
  ⟨⟨by decide, by decide, fun i => rfl⟩,
   retryWithCondition_no_shortcircuit DEFAULT_RETRY_CONFIG
     (fun _ : Nat => (Except.error { status := some 401 } : Except JsError Unit))
     { status := some 401 } (by decide) (by decide) (fun i => rfl)⟩

theorem key_eq_fields {r row : TariffRow} (h : r.key = row.key) :
    r.date = row.date ∧ r.warehouse_name = row.warehouse_name ∧
    r.box_type = row.box_type ∧ r.delivery_type = row.delivery_type := by
  unfold TariffRow.key at h
  simp only [Prod.mk.injEq] at h
  exact ⟨h.1, h.2.1, h.2.2.1, h.2.2.2⟩

theorem insertOrMerge_cons_ne {r row : TariffRow} {s : List TariffRow}
    (h : r.key ≠ row.key) : insertOrMerge (r :: s) row = r :: insertOrMerge s row := by
  unfold insertOrMerge
  by_cases ha : s.any (fun b => decide (b.key = row.key))
  · simp [List.any_cons, h, ha]
  · simp [List.any_cons, h, ha]

theorem insertOrMerge_cons_eq {r row : TariffRow} {s : List TariffRow}
    (hr : ∀ b ∈ s, r.key ≠ b.key) (h : r.key = row.key) :
    insertOrMerge (r :: s) row = row :: s := by
  unfold insertOrMerge
  have hany : (r :: s).any (fun b => decide (b.key = row.key)) = true := by
    simp [List.any_cons, h]
  rw [if_pos hany]
  simp only [List.map_cons, if_pos h]
  have hrow : ({ r with
      coefficient := row.coefficient
      raw_data := row.raw_data
      updated_at := row.updated_at } : TariffRow) = row := by
    obtain ⟨h1, h2, h3, h4⟩ := key_eq_fields h
    cases r; cases row
    simp_all
  rw [hrow]
  congr 1
  have : ∀ b ∈ s, (if b.key = row.key then
      ({ b with
         coefficient := row.coefficient
         raw_data := row.raw_data
         updated_at := row.updated_at } : TariffRow) else b) = b := by
    intro b hb
    rw [if_neg]
    intro hbk
    exact hr b hb (h.trans hbk.symm)
  calc s.map _ = s.map id := List.map_congr_left this
    _ = s := List.map_id s

theorem mem_insertOrMerge_key {s : List TariffRow} {row b : TariffRow}
    (hb : b ∈ insertOrMerge s row) : b.key = row.key ∨ b.key ∈ s.map TariffRow.key := by
  unfold insertOrMerge at hb
  by_cases ha : s.any (fun r => decide (r.key = row.key))
  · rw [if_pos ha] at hb
    rw [List.mem_map] at hb
    obtain ⟨a, haS, hab⟩ := hb
    right
    refine List.mem_map.mpr ⟨a, haS, ?_⟩
    subst hab
    by_cases hk : a.key = row.key
    · rw [if_pos hk]
      rw [hk]
      exact hk.symm
    · rw [if_neg hk]
  · rw [if_neg ha] at hb
    rw [List.mem_append] at hb
    rcases hb with h | h
    · right
      exact List.mem_map.mpr ⟨b, h, rfl⟩
    · left
      simp only [List.mem_singleton] at h
      rw [h]

theorem insertOrMerge_uniqueKeys {s : List TariffRow} (row : TariffRow)
    (hU : UniqueKeys s) : UniqueKeys (insertOrMerge s row) := by
  induction s with
  | nil =>
    unfold insertOrMerge
    simp [UniqueKeys]
  | cons r s ih =>
    rw [UniqueKeys, List.pairwise_cons] at hU
    obtain ⟨hr, hU2⟩ := hU
    by_cases hk : r.key = row.key
    · rw [insertOrMerge_cons_eq hr hk]
      rw [UniqueKeys, List.pairwise_cons]
      constructor
      · intro b hb
        rw [← hk]
        exact hr b hb
      · exact hU2
    · rw [insertOrMerge_cons_ne hk]
      rw [UniqueKeys, List.pairwise_cons]
      constructor
      · intro b hb
        rcases mem_insertOrMerge_key hb with h | h
        · rw [h]
          exact hk
        · rw [List.mem_map] at h
          obtain ⟨a, haS, hak⟩ := h
          rw [← hak]
          exact hr a haS
      · exact ih hU2

theorem rowsWithKey_cons (r : TariffRow) (s : List TariffRow) (k : TariffKey) :
    rowsWithKey (r :: s) k = if r.key = k then r :: rowsWithKey s k else rowsWithKey s k := by
  unfold rowsWithKey
  by_cases h : r.key = k
  · simp [List.filter_cons, h]
  · simp [List.filter_cons, h]

theorem rowsWithKey_nil_of_all_ne {s : List TariffRow} {k : TariffKey}
    (h : ∀ b ∈ s, b.key ≠ k) : rowsWithKey s k = [] := by
  unfold rowsWithKey
  rw [List.filter_eq_nil_iff]
  intro b hb
  simpa using h b hb

theorem rowsWithKey_insertOrMerge {s : List TariffRow} (row : TariffRow) (k : TariffKey)
    (hU : UniqueKeys s) :
    rowsWithKey (insertOrMerge s row) k =
      if row.key = k then [row] else rowsWithKey s k := by
  induction s with
  | nil =>
    unfold insertOrMerge
    simp only [List.any_nil, Bool.false_eq_true, if_false, List.nil_append]
    rw [rowsWithKey_cons]
    by_cases h : row.key = k
    · simp [h, rowsWithKey]
    · simp [h, rowsWithKey]
  | cons r s ih =>
    rw [UniqueKeys, List.pairwise_cons] at hU
    obtain ⟨hr, hU2⟩ := hU
    by_cases hk : r.key = row.key
    · rw [insertOrMerge_cons_eq hr hk]
      rw [rowsWithKey_cons, rowsWithKey_cons]
      by_cases hrk : row.key = k
      · have hempty : rowsWithKey s k = [] := by
          apply rowsWithKey_nil_of_all_ne
          intro b hb hbk
          exact hr b hb (hk.trans (hrk.trans hbk.symm))
        simp [hrk, hk.trans hrk, hempty]
      · have hrk2 : ¬r.key = k := fun h => hrk (hk.symm.trans h)
        simp [hrk, hrk2]
    · rw [insertOrMerge_cons_ne hk]
      rw [rowsWithKey_cons, rowsWithKey_cons, ih hU2]
      by_cases hrk : row.key = k
      · have hrk2 : ¬r.key = k := fun h => hk (h.trans hrk.symm)
        simp [hrk, hrk2]
      · simp [hrk]

theorem upsertRows_uniqueKeys : ∀ (rows : List TariffRow) (s : List TariffRow),
    UniqueKeys s → UniqueKeys (upsertRows s rows) := by
  intro rows
  induction rows with
  | nil => intro s hU; exact hU
  | cons row rows ih =>
    intro s hU
    exact ih (insertOrMerge s row) (insertOrMerge_uniqueKeys row hU)

theorem toRow_key (now : Int) (t : ProcessedTariff) : (toRow now t).key = t.key := rfl

theorem rowsWithKey_upsertRows (now : Int) (k : TariffKey) :
    ∀ (ts : List ProcessedTariff) (s : List TariffRow), UniqueKeys s →
    rowsWithKey (upsertRows s (ts.map (toRow now))) k =
      (match lastKeyed k ts with
       | some u => [toRow now u]
       | none => rowsWithKey s k) := by
  intro ts
  induction ts with
  | nil => intro s hU; simp [upsertRows, lastKeyed]
  | cons t ts ih =>
    intro s hU
    have hstep : upsertRows s ((t :: ts).map (toRow now)) =
        upsertRows (insertOrMerge s (toRow now t)) (ts.map (toRow now)) := by
      simp [upsertRows]
    rw [hstep, ih _ (insertOrMerge_uniqueKeys _ hU)]
    cases hl : lastKeyed k ts with
    | some u => simp [lastKeyed, hl]
    | none =>
      simp only [lastKeyed, hl]
      rw [rowsWithKey_insertOrMerge _ k hU]
      rw [toRow_key]
      by_cases hk : t.key = k
      · rw [if_pos hk, if_pos hk]
      · rw [if_neg hk, if_neg hk]

theorem lastKeyed_isSome {t : ProcessedTariff} : ∀ {ts : List ProcessedTariff}, t ∈ ts →
    ∃ u, lastKeyed t.key ts = some u := by
  intro ts
  induction ts with
  | nil => intro h; cases h
  | cons h0 ts ih =>
    intro hmem
    rcases List.mem_cons.mp hmem with rfl | hmem2
    · cases hl : lastKeyed t.key ts with
      | some u => exact ⟨u, by simp [lastKeyed, hl]⟩
      | none => exact ⟨t, by simp [lastKeyed, hl]⟩
    · obtain ⟨u, hu⟩ := ih hmem2
      exact ⟨u, by simp [lastKeyed, hu]⟩

/-- C1: upsert is idempotent and replaces rather than duplicates: on a
store satisfying the unique-key invariant, calling upsertDailyTariffs
twice with the identical tariff list leaves a store that still has at
most one row per business key, and for every tariff of the list exactly
one row with its key, holding the coefficient and raw payload of the
last list entry with that key together with the latest update
timestamp. -/
theorem upsertDaily_idempotent (store : List TariffRow) (ts : List ProcessedTariff)
    (now1 now2 : Int) (hU : UniqueKeys store) :
    UniqueKeys (upsertDailyTariffs (upsertDailyTariffs store ts now1).store ts now2).store ∧
    ∀ t ∈ ts, ∃ u, lastKeyed t.key ts = some u ∧
      rowsWithKey (upsertDailyTariffs (upsertDailyTariffs store ts now1).store ts now2).store t.key =
        [toRow now2 u] := by
  by_cases hts : ts.isEmpty
  · have hnil : ts = [] := List.isEmpty_iff.mp hts
    subst hnil
    simp only [upsertDailyTariffs, List.isEmpty_nil, if_pos]
    refine ⟨hU, ?_⟩
    intro t ht
    cases ht
  · have h1 : (upsertDailyTariffs store ts now1).store = upsertRows store (ts.map (toRow now1)) := by
      simp [upsertDailyTariffs, hts]
    have hU1 : UniqueKeys (upsertDailyTariffs store ts now1).store := by
      rw [h1]
      exact upsertRows_uniqueKeys _ _ hU
    have h2 : (upsertDailyTariffs (upsertDailyTariffs store ts now1).store ts now2).store =
        upsertRows (upsertDailyTariffs store ts now1).store (ts.map (toRow now2)) := by
      simp [upsertDailyTariffs, hts]
    constructor
    · rw [h2]
      exact upsertRows_uniqueKeys _ _ hU1
    · intro t ht
      obtain ⟨u, hu⟩ := lastKeyed_isSome ht
      refine ⟨u, hu, ?_⟩
      rw [h2, rowsWithKey_upsertRows now2 t.key ts _ hU1, hu]

theorem upsertDaily_idempotent_witness :
    UniqueKeys ([] : List TariffRow) ∧
    (UniqueKeys (upsertDailyTariffs (upsertDailyTariffs []
        [⟨0, "W", "Box", "Standard", 1, "a"⟩, ⟨0, "W", "Box", "Standard", 2, "b"⟩] 5).store
        [⟨0, "W", "Box", "Standard", 1, "a"⟩, ⟨0, "W", "Box", "Standard", 2, "b"⟩] 7).store ∧
     ∀ t ∈ [(⟨0, "W", "Box", "Standard", 1, "a"⟩ : ProcessedTariff), ⟨0, "W", "Box", "Standard", 2, "b"⟩],
       ∃ u, lastKeyed t.key [(⟨0, "W", "Box", "Standard", 1, "a"⟩ : ProcessedTariff), ⟨0, "W", "Box", "Standard", 2, "b"⟩] = some u ∧
         rowsWithKey (upsertDailyTariffs (upsertDailyTariffs []
             [⟨0, "W", "Box", "Standard", 1, "a"⟩, ⟨0, "W", "Box", "Standard", 2, "b"⟩] 5).store
             [⟨0, "W", "Box", "Standard", 1, "a"⟩, ⟨0, "W", "Box", "Standard", 2, "b"⟩] 7).store t.key =
           [toRow 7 u]) ∧
    (upsertDailyTariffs (upsertDailyTariffs []
        [⟨0, "W", "Box", "Standard", 1, "a"⟩, ⟨0, "W", "Box", "Standard", 2, "b"⟩] 5).store
        [⟨0, "W", "Box", "Standard", 1, "a"⟩, ⟨0, "W", "Box", "Standard", 2, "b"⟩] 7).store =
      [⟨0, "W", "Box", "Standard", 2, "b", 7⟩] :=
  ⟨by simp [UniqueKeys],
   upsertDaily_idempotent [] _ 5 7 (by simp [UniqueKeys]),
   by decide⟩

theorem maxDate_isSome {s : List TariffRow} (h : s ≠ []) : ∃ d, maxDate s = some d := by
  cases s with
  | nil => exact absurd rfl h
  | cons r rs =>
    cases hm : maxDate rs with
    | none => exact ⟨r.date, by simp [maxDate, hm]⟩
    | some m => exact ⟨max r.date m, by simp [maxDate, hm]⟩

theorem maxDate_ge : ∀ {s : List TariffRow} {d : Int}, maxDate s = some d →
    ∀ r ∈ s, r.date ≤ d := by
  intro s
  induction s with
  | nil => intro d h r hr; cases hr
  | cons r0 rs ih =>
    intro d h r hr
    rcases List.mem_cons.mp hr with rfl | hr2
    · cases hm : maxDate rs with
      | none => simp [maxDate, hm] at h; omega
      | some m => simp [maxDate, hm] at h; omega
    · cases hm : maxDate rs with
      | none =>
        exfalso
        cases rs with
        | nil => cases hr2
        | cons a b =>
          have := maxDate_isSome (s := a :: b) (by simp)
          obtain ⟨d2, hd2⟩ := this
          rw [hd2] at hm
          cases hm
      | some m =>
        have hle := ih hm r hr2
        simp [maxDate, hm] at h
        omega

theorem maxDate_mem : ∀ {s : List TariffRow} {d : Int}, maxDate s = some d →
    ∃ r ∈ s, r.date = d := by
  intro s
  induction s with
  | nil => intro d h; cases h
  | cons r0 rs ih =>
    intro d h
    cases hm : maxDate rs with
    | none =>
      simp [maxDate, hm] at h
      exact ⟨r0, by simp, h⟩
    | some m =>
      simp [maxDate, hm] at h
      obtain ⟨r, hr, hrd⟩ := ih hm
      by_cases hcmp : r0.date ≤ m
      · refine ⟨r, by simp [hr], ?_⟩
        rw [hrd]
        omega
      · refine ⟨r0, by simp, ?_⟩
        omega

/-- C6: getLatestDailyTariffs returns the empty list on an empty store;
on a non-empty store it determines the maximum stored date and returns
exactly the rows of that date, as processed tariffs, ordered ascending
by coefficient. -/
theorem getLatestDaily_spec (store : List TariffRow) :
    (store = [] → getLatestDailyTariffs store = []) ∧
    (store ≠ [] → ∃ d, maxDate store = some d ∧
      (∀ r ∈ store, r.date ≤ d) ∧ (∃ r ∈ store, r.date = d) ∧
      (getLatestDailyTariffs store).Perm
        ((store.filter fun r => decide (r.date = d)).map mapRowToTariff) ∧
      (getLatestDailyTariffs store).Sorted fun a b => a.coefficient ≤ b.coefficient) := by
  constructor
  · intro h
    subst h
    simp [getLatestDailyTariffs, maxDate]
  · intro h
    obtain ⟨d, hd⟩ := maxDate_isSome h
    refine ⟨d, hd, maxDate_ge hd, maxDate_mem hd, ?_, ?_⟩
    · rw [getLatestDailyTariffs, hd]
      exact (List.perm_insertionSort rowCoeffLE _).map mapRowToTariff
    · rw [getLatestDailyTariffs, hd]
      have hs : ((store.filter fun r => decide (r.date = d)).insertionSort rowCoeffLE).Sorted rowCoeffLE :=
        List.sorted_insertionSort rowCoeffLE _
    
      exact List.Pairwise.map mapRowToTariff (fun a b hab => hab) hs

unseal Rat.mul Rat.inv Rat.add Rat.sub Rat.ofScientific in
theorem getLatestDaily_spec_witness :
    (([⟨0, "A", "Box", "Standard", 3, "a", 1⟩, ⟨0, "B", "Box", "Standard", 11/10, "b", 1⟩,
       ⟨0, "C", "Box", "Standard", 5/2, "c", 1⟩] : List TariffRow) ≠ []) ∧
    (∃ d, maxDate [⟨0, "A", "Box", "Standard", 3, "a", 1⟩, ⟨0, "B", "Box", "Standard", 11/10, "b", 1⟩,
       ⟨0, "C", "Box", "Standard", 5/2, "c", 1⟩] = some d ∧
      (∀ r ∈ ([⟨0, "A", "Box", "Standard", 3, "a", 1⟩, ⟨0, "B", "Box", "Standard", 11/10, "b", 1⟩,
       ⟨0, "C", "Box", "Standard", 5/2, "c", 1⟩] : List TariffRow), r.date ≤ d) ∧
      (∃ r ∈ ([⟨0, "A", "Box", "Standard", 3, "a", 1⟩, ⟨0, "B", "Box", "Standard", 11/10, "b", 1⟩,
       ⟨0, "C", "Box", "Standard", 5/2, "c", 1⟩] : List TariffRow), r.date = d) ∧
      (getLatestDailyTariffs [⟨0, "A", "Box", "Standard", 3, "a", 1⟩, ⟨0, "B", "Box", "Standard", 11/10, "b", 1⟩,
       ⟨0, "C", "Box", "Standard", 5/2, "c", 1⟩]).Perm
        (([⟨0, "A", "Box", "Standard", 3, "a", 1⟩, ⟨0, "B", "Box", "Standard", 11/10, "b", 1⟩,
       ⟨0, "C", "Box", "Standard", 5/2, "c", 1⟩] : List TariffRow).filter
          (fun r => decide (r.date = d)) |>.map mapRowToTariff) ∧
      (getLatestDailyTariffs [⟨0, "A", "Box", "Standard", 3, "a", 1⟩, ⟨0, "B", "Box", "Standard", 11/10, "b", 1⟩,
       ⟨0, "C", "Box", "Standard", 5/2, "c", 1⟩]).Sorted fun a b => a.coefficient ≤ b.coefficient) ∧
    getLatestDailyTariffs [⟨0, "A", "Box", "Standard", 3, "a", 1⟩, ⟨0, "B", "Box", "Standard", 11/10, "b", 1⟩,
       ⟨0, "C", "Box", "Standard", 5/2, "c", 1⟩] =
      [⟨0, "B", "Box", "Standard", 11/10, "b"⟩, ⟨0, "C", "Box", "Standard", 5/2, "c"⟩,
       ⟨0, "A", "Box", "Standard", 3, "a"⟩] :=
  ⟨by simp,
   (getLatestDaily_spec _).2 (by simp),
   by decide⟩

/-- C5: syncAllSheets attempts every configured target and returns
exactly one result per target; no exception escapes, each result is the
outcome of that target alone, a target succeeds exactly when its batch
update succeeds or the snapshot is empty, and an empty snapshot is a
success with zero rows written. -/
theorem syncAllSheets_spec (ids : List String) (tariffs : List ProcessedTariff)
    (update : String → Except String Unit) :
    (syncAllSheets ids (Except.ok tariffs) update).length = ids.length ∧
    ∀ i (hi : i < ids.length),
      ∃ r, (syncAllSheets ids (Except.ok tariffs) update).get
          ⟨i, by simpa [syncAllSheets] using hi⟩ = r ∧
        r.spreadsheetId = ids.get ⟨i, hi⟩ ∧
        (r.success = true ↔ (tariffs = [] ∨ update (ids.get ⟨i, hi⟩) = Except.ok ())) ∧
        (tariffs = [] → r.success = true ∧ r.rowsUpdated = 0) ∧
        (tariffs ≠ [] → r.success = true → r.rowsUpdated = tariffs.length) ∧
        (∀ msg, update (ids.get ⟨i, hi⟩) = Except.error msg → tariffs ≠ [] →
          r.success = false ∧ r.rowsUpdated = 0 ∧ r.error = some msg) := by
  refine ⟨by simp [syncAllSheets], ?_⟩
  intro i hi
  refine ⟨syncSheet (Except.ok tariffs) (update (ids.get ⟨i, hi⟩)) (ids.get ⟨i, hi⟩), ?_, ?_⟩
  · simp [syncAllSheets, List.get_map]
  · unfold syncSheet
    by_cases hts : tariffs.isEmpty
    · have hnil : tariffs = [] := List.isEmpty_iff.mp hts
      simp [hts, hnil]
    · have hne : tariffs ≠ [] := fun h => hts (by simp [h])
      cases hu : update (ids.get ⟨i, hi⟩) with
      | ok u =>
        cases u
        simp [hts, hu, hne, formatTariffsForSheet]
      | error msg =>
        simp [hts, hu, hne]

theorem syncAllSheets_spec_witness :
    (∃ r, (syncAllSheets ["s1", "s2", "s3"]
          (Except.ok [⟨0, "W", "Box", "Standard", 1, "raw"⟩])
          (fun id => if id = "s2" then Except.error "boom" else Except.ok ())).get
        ⟨1, by simp [syncAllSheets]⟩ = r ∧
      r.spreadsheetId = (["s1", "s2", "s3"].get ⟨1, by simp⟩) ∧
      (r.success = true ↔ (([⟨0, "W", "Box", "Standard", 1, "raw"⟩] : List ProcessedTariff) = [] ∨
        (fun id => if id = "s2" then Except.error "boom" else Except.ok ()) (["s1", "s2", "s3"].get ⟨1, by simp⟩) = Except.ok ())) ∧
      (([⟨0, "W", "Box", "Standard", 1, "raw"⟩] : List ProcessedTariff) = [] → r.success = true ∧ r.rowsUpdated = 0) ∧
      (([⟨0, "W", "Box", "Standard", 1, "raw"⟩] : List ProcessedTariff) ≠ [] → r.success = true →
        r.rowsUpdated = ([⟨0, "W", "Box", "Standard", 1, "raw"⟩] : List ProcessedTariff).length) ∧
      (∀ msg, (fun id => if id = "s2" then Except.error "boom" else Except.ok ()) (["s1", "s2", "s3"].get ⟨1, by simp⟩) = Except.error msg →
        ([⟨0, "W", "Box", "Standard", 1, "raw"⟩] : List ProcessedTariff) ≠ [] →
        r.success = false ∧ r.rowsUpdated = 0 ∧ r.error = some msg)) ∧
    (syncAllSheets ["s1", "s2", "s3"]
        (Except.ok [⟨0, "W", "Box", "Standard", 1, "raw"⟩])
        (fun id => if id = "s2" then Except.error "boom" else Except.ok ())).map SyncResult.success =
      [true, false, true] ∧
    (syncAllSheets ["s1", "s2", "s3"]
        (Except.ok [⟨0, "W", "Box", "Standard", 1, "raw"⟩])
        (fun id => if id = "s2" then Except.error "boom" else Except.ok ())).length = 3 ∧
    ((syncAllSheets ["s1", "s2", "s3"]
        (Except.ok [⟨0, "W", "Box", "Standard", 1, "raw"⟩])
        (fun id => if id = "s2" then Except.error "boom" else Except.ok ())).filter
      (fun r => r.success)).length = 2 :=
  ⟨(syncAllSheets_spec ["s1", "s2", "s3"] [⟨0, "W", "Box", "Standard", 1, "raw"⟩]
      (fun id => if id = "s2" then Except.error "boom" else Except.ok ())).2 1 (by decide),
   by decide, by decide, by decide⟩
